import Mathlib

/-!
Verification of the LiveKit drive-thru / reservation voice-agent repository.

The development shallowly embeds the state-manipulating core of the sources:
  * `src/agent/agent.py`   — drive-thru multi-agent bot (`DriveThruData`, the
    role-gated function tools, and the hand-off helpers);
  * `src/agent/agent_kr.py` — Korean ordering bot (`OrderData`, detail
    collection, confirmation, teardown);
  * `src/agent_test.py`     — reservation bot (`ReservationData`);
  * `src/wav_merger.py`     — batched WAV concatenation.

Python `Optional` fields become `Option`; Python truthiness (`x or y`) is
embedded by explicit truthiness functions on `Option`.  The Python `float`
amounts are modelled as `Rat`: the code only stores amounts, passes them
through, and tests them against zero, so no floating-point rounding behaviour
is ever exercised.  Message strings are carried verbatim from the source,
except that numeric formatting (`f"{total:,.0f}"`) is abstracted by
`wonMessage`, whose exact numeral rendering no property below inspects.
-/

/-- One order line appended by `add_item`: `{"item": …, "size": …, "options": …}`. -/
structure OrderLine where
  item : String
  size : String
  options : List String
deriving DecidableEq, Repr

/-- The conversation state of `agent.py` (`DriveThruData`).  The Python
`agents` dictionary is static bookkeeping and is omitted; `prev_agent` is kept
as the previous role identifier. -/
structure DriveThruData where
  customer_name : Option String := none
  car_model : Option String := none
  license_plate : Option String := none
  order : Option (List OrderLine) := none
  pay_method : Option String := none
  expense : Option Rat := none
  checked_out : Option Bool := none
  prev_agent : Option Nat := none
deriving DecidableEq, Repr

/-- Python truthiness of the optional order list: `None` and `[]` are falsy. -/
def orderTruthy : Option (List OrderLine) → Bool
  | some (_ :: _) => true
  | _ => false

/-- Python truthiness of an optional string: `None` and `""` are falsy. -/
def strTruthy : Option String → Bool
  | some s => s != ""
  | none => false

/-- Python truthiness of the optional amount: `None` and `0.0` are falsy. -/
def ratTruthy : Option Rat → Bool
  | some x => x != 0
  | none => false

/-- Values appearing in the dictionary that `DriveThruData.summarize` builds
and then passes to `yaml.dump`.  (`yaml.dump` is an injective external
renderer; properties are stated on the dictionary itself.) -/
inductive YamlVal where
  | s : String → YamlVal
  | num : Rat → YamlVal
  | b : Bool → YamlVal
  | items : List OrderLine → YamlVal
deriving DecidableEq, Repr

/-- Rendering `self.field or "unknown"` for an optional string field. -/
def pyOrStr (v : Option String) : YamlVal :=
  match v with
  | some s => if s = "" then YamlVal.s "unknown" else YamlVal.s s
  | none => YamlVal.s "unknown"

/-- Rendering `self.order or "unknown"` for the optional order list. -/
def pyOrOrder (v : Option (List OrderLine)) : YamlVal :=
  match v with
  | some l => if l = [] then YamlVal.s "unknown" else YamlVal.items l
  | none => YamlVal.s "unknown"

/-- Rendering `self.expense or "unknown"` for the optional amount. -/
def pyOrExpense (v : Option Rat) : YamlVal :=
  match v with
  | some x => if x = 0 then YamlVal.s "unknown" else YamlVal.num x
  | none => YamlVal.s "unknown"

/-- Rendering `self.checked_out or False`. -/
def pyOrBool (v : Option Bool) : YamlVal :=
  YamlVal.b (v.getD false)

/-- Embedding of `DriveThruData.summarize`: the key/value dictionary handed to `yaml.dump`. -/
def summarize (d : DriveThruData) : List (String × YamlVal) :=
  [ ("name", pyOrStr d.customer_name)
  , ("car_model", pyOrStr d.car_model)
  , ("license_plate", pyOrStr d.license_plate)
  , ("order", pyOrOrder d.order)
  , ("pay_method", pyOrStr d.pay_method)
  , ("expense", pyOrExpense d.expense)
  , ("checked_out", pyOrBool d.checked_out) ]

/-- The four agent roles of `agent.py`, keyed `greeter` / `order` / `payment`
/ `pickup` in the `agents` dictionary. -/
inductive Role where
  | greeter
  | order
  | payment
  | pickup
deriving DecidableEq, Repr

/-- Numeric code used to store the previous role in `prev_agent`. -/
def Role.code : Role → Nat
  | .greeter => 0
  | .order => 1
  | .payment => 2
  | .pickup => 3

/-- The `agents` dictionary key naming each role. -/
def Role.key : Role → String
  | .greeter => "greeter"
  | .order => "order"
  | .payment => "payment"
  | .pickup => "pickup"

/-- The function tools of `agent.py` that read or mutate `DriveThruData`. -/
inductive ToolCall where
  | to_order
  | add_item (item : String) (size : String) (options : List String)
  | update_name (name : String)
  | update_car_model (model : String)
  | update_license_plate (plate : String)
  | order_done
  | update_pay_method (method : String)
  | confirm_total (total : Rat)
  | payment_done
  | pickup_complete
deriving DecidableEq, Repr

/-- The active role together with the shared `DriveThruData`. -/
structure SessionState where
  role : Role
  data : DriveThruData
deriving DecidableEq, Repr

/-- Embedding of `BaseAgent._transfer_to_agent`: record the outgoing role in `prev_agent`,
activate the target role, and return the transition message. -/
def transferToAgent (target : Role) (s : SessionState) : SessionState × String :=
  ( { role := target, data := { s.data with prev_agent := some s.role.code } }
  , target.key ++ " 로 이동합니다." )

/-- Pure effect of the `add_item` tool body on the data record:
`data.order = data.order or []` followed by an append. -/
def addItemData (d : DriveThruData) (item size : String) (options : List String) :
    DriveThruData :=
  { d with order := some (d.order.getD [] ++ [⟨item, size, options⟩]) }

/-- Message of `confirm_total`.  The Python code formats the amount with
thousands separators (`f"{total:,.0f}"`); the numeral rendering is abstracted
here and no property below depends on it. -/
def wonMessage (t : Rat) : String :=
  "총 " ++ toString t ++ "원입니다."

/-- The clarifying message `order_done` returns on an empty order. -/
def emptyOrderMessage : String := "아직 주문이 없습니다. 음료/푸드를 알려주세요."

/-- The clarifying message `payment_done` returns when amount or method is missing. -/
def missingPaymentMessage : String := "결제 금액 또는 방식을 먼저 확인해주세요."

/-- One role-gated tool-call step of `agent.py`.  `none` means the tool is not
exposed by the current role (each `@function_tool` is registered on exactly one
agent, plus the shared tools listed in that agent's `tools=[…]`).  Otherwise
the result is the successor state and the returned message. -/
def applyTool (s : SessionState) (c : ToolCall) : Option (SessionState × String) :=
  match s.role, c with
  | .greeter, .to_order => some (transferToAgent .order s)
  | .order, .add_item item size options =>
      some ( { s with data := addItemData s.data item size options }
           , size ++ " " ++ item ++ " 추가 완료." )
  | .order, .update_name n =>
      some ( { s with data := { s.data with customer_name := some n } }
           , "이름을 " ++ n ++ "(으)로 저장했습니다." )
  | .order, .update_car_model m =>
      some ( { s with data := { s.data with car_model := some m } }
           , "차량 모델을 " ++ m ++ "(으)로 저장했습니다." )
  | .order, .update_license_plate p =>
      some ( { s with data := { s.data with license_plate := some p } }
           , "차량 번호를 " ++ p ++ "(으)로 저장했습니다." )
  | .order, .order_done =>
      if orderTruthy s.data.order then some (transferToAgent .payment s)
      else some (s, emptyOrderMessage)
  | .payment, .update_pay_method m =>
      some ( { s with data := { s.data with pay_method := some m } }
           , "결제 방식을 " ++ m ++ "(으)로 설정했습니다." )
  | .payment, .confirm_total t =>
      some ( { s with data := { s.data with expense := some t } }, wonMessage t )
  | .payment, .payment_done =>
      if ratTruthy s.data.expense && strTruthy s.data.pay_method then
        some (transferToAgent .pickup s)
      else some (s, missingPaymentMessage)
  | .pickup, .pickup_complete =>
      some (transferToAgent .greeter
              { s with data := { s.data with checked_out := some true } })
  | _, _ => none

/-- The fresh `DriveThruData()` created in `entrypoint`. -/
def freshData : DriveThruData := {}

/-- The session starts with the greeter role (`agent=userdata.agents["greeter"]`). -/
def freshState : SessionState := { role := .greeter, data := freshData }

/-- States reachable from the fresh state by role-gated tool calls. -/
inductive Reachable : SessionState → Prop where
  | init : Reachable freshState
  | step (s s' : SessionState) (c : ToolCall) (m : String) :
      Reachable s → applyTool s c = some (s', m) → Reachable s'

/-- The inductive session invariant: payment fields require a non-empty order,
the checkout flag requires the payment fields, and the role gating keeps the
payment/pickup stages supplied with the data their tools assume. -/
def SessionInv (s : SessionState) : Prop :=
  (s.data.expense ≠ none → orderTruthy s.data.order = true) ∧
  (s.data.pay_method ≠ none → orderTruthy s.data.order = true) ∧
  (s.data.checked_out = some true →
    s.data.expense ≠ none ∧ s.data.pay_method ≠ none) ∧
  (s.role = .payment → orderTruthy s.data.order = true) ∧
  (s.role = .pickup →
    orderTruthy s.data.order = true ∧ s.data.expense ≠ none ∧
      s.data.pay_method ≠ none)

theorem orderTruthy_append (l : Option (List OrderLine)) (x : OrderLine) :
    orderTruthy (some (l.getD [] ++ [x])) = true := by
  cases l with
  | none => rfl
  | some l' => cases l' <;> rfl

theorem inv_step {s s' : SessionState} {c : ToolCall} {m : String}
    (hs : SessionInv s) (h : applyTool s c = some (s', m)) : SessionInv s' := by
  obtain ⟨r, d⟩ := s
  obtain ⟨h1, h2, h3, h4, h5⟩ := hs
  cases r <;> cases c <;>
    simp only [applyTool, transferToAgent, addItemData, Option.some.injEq,
      Prod.mk.injEq] at h <;>
    try exact Option.noConfusion h
  · -- greeter, to_order
    obtain ⟨hs', hm⟩ := h
    subst hs'
    exact ⟨h1, h2, h3, by simp, by simp⟩
  · -- order, add_item
    obtain ⟨hs', hm⟩ := h
    subst hs'
    exact ⟨fun _ => orderTruthy_append _ _, fun _ => orderTruthy_append _ _,
      h3, by simp, by simp⟩
  · -- order, update_name
    obtain ⟨hs', hm⟩ := h
    subst hs'
    exact ⟨h1, h2, h3, by simp, by simp⟩
  · -- order, update_car_model
    obtain ⟨hs', hm⟩ := h
    subst hs'
    exact ⟨h1, h2, h3, by simp, by simp⟩
  · -- order, update_license_plate
    obtain ⟨hs', hm⟩ := h
    subst hs'
    exact ⟨h1, h2, h3, by simp, by simp⟩
  · -- order, order_done
    split at h
    · simp only [Option.some.injEq, Prod.mk.injEq] at h
      obtain ⟨hs', hm⟩ := h
      subst hs'
      rename_i hord
      exact ⟨fun _ => hord, fun _ => hord, h3, fun _ => hord, by simp⟩
    · simp only [Option.some.injEq, Prod.mk.injEq] at h
      obtain ⟨hs', hm⟩ := h
      subst hs'
      exact ⟨h1, h2, h3, h4, h5⟩
  · -- payment, update_pay_method
    obtain ⟨hs', hm⟩ := h
    subst hs'
    exact ⟨fun _ => h4 rfl, fun _ => h4 rfl, fun hco => ⟨(h3 hco).1, by simp⟩,
      fun _ => h4 rfl, by simp⟩
  · -- payment, confirm_total
    obtain ⟨hs', hm⟩ := h
    subst hs'
    exact ⟨fun _ => h4 rfl, fun _ => h4 rfl, fun hco => ⟨by simp, (h3 hco).2⟩,
      fun _ => h4 rfl, by simp⟩
  · -- payment, payment_done
    split at h
    · simp only [Option.some.injEq, Prod.mk.injEq] at h
      obtain ⟨hs', hm⟩ := h
      subst hs'
      rename_i hgrd
      have hexp : d.expense ≠ none := by
        intro hx
        rw [hx] at hgrd
        simp [ratTruthy] at hgrd
      have hpm : d.pay_method ≠ none := by
        intro hx
        rw [hx] at hgrd
        simp [strTruthy] at hgrd
      exact ⟨fun _ => h4 rfl, fun _ => h4 rfl, fun _ => ⟨hexp, hpm⟩,
        by simp, fun _ => ⟨h4 rfl, hexp, hpm⟩⟩
    · simp only [Option.some.injEq, Prod.mk.injEq] at h
      obtain ⟨hs', hm⟩ := h
      subst hs'
      exact ⟨h1, h2, h3, h4, h5⟩
  · -- pickup, pickup_complete
    obtain ⟨hs', hm⟩ := h
    subst hs'
    obtain ⟨ho, he, hp⟩ := h5 rfl
    exact ⟨fun _ => ho, fun _ => ho, fun _ => ⟨he, hp⟩, by simp, by simp⟩

theorem inv_of_reachable {s : SessionState} (h : Reachable s) : SessionInv s := by
  induction h with
  | init =>
      refine ⟨?_, ?_, ?_, ?_, ?_⟩ <;> intro hx <;> simp [freshState, freshData] at hx
  | step _ _ _ _ _ happ ih => exact inv_step ih happ

/-- Claim C1:  In every session state reachable from the fresh state by the
role-gated tool-call step relation, `expense` and `pay_method` are set only if
the order list is non-empty, and `checked_out` is `true` only if both
`expense` and `pay_method` are set. -/
theorem c1_payment_checkout_invariant (s : SessionState) (h : Reachable s) :
    ((s.data.expense ≠ none ∨ s.data.pay_method ≠ none) →
      orderTruthy s.data.order = true) ∧
    (s.data.checked_out = some true →
      s.data.expense ≠ none ∧ s.data.pay_method ≠ none) := by
  obtain ⟨h1, h2, h3, _, _⟩ := inv_of_reachable h
  exact ⟨fun hor => hor.elim h1 h2, h3⟩

/-- A concrete state reached by `to_order` then one `add_item`. -/
def demoState : SessionState :=
  { role := .order
  , data := { order := some [⟨"Caffè Latte", "Tall", ["Oat milk"]⟩]
            , prev_agent := some 0 } }

theorem demoState_reachable : Reachable demoState := by
  have h1 : Reachable { role := .order, data := { freshData with prev_agent := some 0 } } :=
    Reachable.step freshState _ ToolCall.to_order _ Reachable.init rfl
  exact Reachable.step _ _ (ToolCall.add_item "Caffè Latte" "Tall" ["Oat milk"]) _ h1 rfl

theorem c1_payment_checkout_invariant_witness :
    ((demoState.data.expense ≠ none ∨ demoState.data.pay_method ≠ none) →
      orderTruthy demoState.data.order = true) ∧
    (demoState.data.checked_out = some true →
      demoState.data.expense ≠ none ∧ demoState.data.pay_method ≠ none) :=
  c1_payment_checkout_invariant demoState demoState_reachable

/-- The order list, `[]` while unset. -/
def orderList (d : DriveThruData) : List OrderLine := d.order.getD []

/-- Arguments of one `add_item` tool call. -/
structure AddItemCall where
  item : String
  size : String
  options : List String
deriving DecidableEq, Repr

/-- The order line an `add_item` call appends. -/
def AddItemCall.line (c : AddItemCall) : OrderLine := ⟨c.item, c.size, c.options⟩

/-- Effect of a finite sequence of `add_item` calls on the data record. -/
def applyAddItems (d : DriveThruData) (calls : List AddItemCall) : DriveThruData :=
  calls.foldl (fun d c => addItemData d c.item c.size c.options) d

theorem orderList_addItemData (d : DriveThruData) (i s : String) (o : List String) :
    orderList (addItemData d i s o) = orderList d ++ [⟨i, s, o⟩] := rfl

theorem applyAddItems_orderList (calls : List AddItemCall) (d : DriveThruData) :
    orderList (applyAddItems d calls) = orderList d ++ calls.map AddItemCall.line := by
  induction calls generalizing d with
  | nil => simp [applyAddItems]
  | cons c cs ih =>
      simp only [applyAddItems, List.foldl_cons, List.map_cons]
      rw [show List.foldl (fun d c => addItemData d c.item c.size c.options)
            (addItemData d c.item c.size c.options) cs
          = applyAddItems (addItemData d c.item c.size c.options) cs from rfl, ih]
      simp [orderList_addItemData, AddItemCall.line]

/-- Claim C3:  Successful `add_item` calls append in call order: after any finite
sequence of calls the order list is the previous list extended by the records
of the calls (so its length grows by the number of calls); every `add_item`
call in the order-taker role succeeds with exactly this effect; and the single
call `add_item("Caffè Latte", "Tall", ["Oat milk"])` on a fresh state yields
`order = [{item: "Caffè Latte", size: "Tall", options: ["Oat milk"]}]`. -/
theorem c3_add_item_appends_in_order (d : DriveThruData) (calls : List AddItemCall) :
    orderList (applyAddItems d calls) = orderList d ++ calls.map AddItemCall.line ∧
    (orderList (applyAddItems d calls)).length = (orderList d).length + calls.length ∧
    (∀ i sz o, applyTool { role := .order, data := d } (.add_item i sz o)
      = some ({ role := .order, data := addItemData d i sz o },
              sz ++ " " ++ i ++ " 추가 완료.")) ∧
    (addItemData freshData "Caffè Latte" "Tall" ["Oat milk"]).order
      = some [⟨"Caffè Latte", "Tall", ["Oat milk"]⟩] := by
  refine ⟨applyAddItems_orderList calls d, ?_, fun i sz o => rfl, rfl⟩
  rw [applyAddItems_orderList]
  simp

/-- An empty-order state in the payment role whose `expense`/`pay_method` are
already truthy (possible because `confirm_total` and `update_pay_method` check
no precondition). -/
def payReadyEmptyOrder : DriveThruData :=
  { expense := some 5300, pay_method := some "카드" }

/-- Claim C2, counterexample:  On an empty-order state, `confirm_total` is not a
soft failure: it mutates `expense` and returns the total announcement, and
`payment_done` with truthy payment fields performs a role transition to the
pickup role even though the order is still empty. -/
theorem c2_counterexample :
    orderTruthy freshData.order = false ∧
    applyTool { role := .payment, data := freshData } (.confirm_total 5300)
      = some ({ role := .payment, data := { freshData with expense := some 5300 } },
              wonMessage 5300) ∧
    ({ freshData with expense := some 5300 } : DriveThruData) ≠ freshData ∧
    orderTruthy payReadyEmptyOrder.order = false ∧
    applyTool { role := .payment, data := payReadyEmptyOrder } .payment_done
      = some (transferToAgent .pickup { role := .payment, data := payReadyEmptyOrder }) ∧
    (transferToAgent .pickup { role := .payment, data := payReadyEmptyOrder }).1.role
      ≠ Role.payment := by
  refine ⟨rfl, rfl, ?_, rfl, rfl, by decide⟩
  intro hx
  have : ({ freshData with expense := some 5300 } : DriveThruData).expense
      = freshData.expense := by rw [hx]
  simp [freshData] at this

/-- Claim C2, amended:  On every empty-order state, `order_done` returns the
clarifying message, mutates nothing and stays in the order role;
`payment_done` does the same in the payment role whenever `expense` or
`pay_method` is additionally missing or falsy; `confirm_total`, however,
checks no precondition and always records the announced total. -/
theorem c2_amended_empty_order_soft_failures (d : DriveThruData)
    (he : orderTruthy d.order = false) :
    applyTool { role := .order, data := d } .order_done
      = some ({ role := .order, data := d }, emptyOrderMessage) ∧
    ((ratTruthy d.expense = false ∨ strTruthy d.pay_method = false) →
      applyTool { role := .payment, data := d } .payment_done
        = some ({ role := .payment, data := d }, missingPaymentMessage)) ∧
    (∀ t, applyTool { role := .payment, data := d } (.confirm_total t)
      = some ({ role := .payment, data := { d with expense := some t } },
              wonMessage t)) := by
  refine ⟨?_, ?_, fun t => rfl⟩
  · simp [applyTool, he]
  · intro hfalsy
    rcases hfalsy with hf | hf <;> simp [applyTool, hf]

theorem c2_amended_empty_order_soft_failures_witness :
    orderTruthy freshData.order = false ∧
    applyTool { role := .order, data := freshData } .order_done
      = some ({ role := .order, data := freshData }, emptyOrderMessage) ∧
    applyTool { role := .payment, data := freshData } .payment_done
      = some ({ role := .payment, data := freshData }, missingPaymentMessage) := by
  have h := c2_amended_empty_order_soft_failures freshData rfl
  exact ⟨rfl, h.1, h.2.1 (Or.inl rfl)⟩

/-- Claim C6:  From any payment-role state with `pay_method` unset and
`checked_out` unset, `confirm_total(5300)` records the expense, and the
subsequent `payment_done` returns the clarifying message and changes nothing:
expense stays `5300`, `checked_out` stays unset, the role stays `payment`. -/
theorem c6_payment_done_without_method (d : DriveThruData)
    (hpm : d.pay_method = none) (hco : d.checked_out = none) :
    applyTool { role := .payment, data := d } (.confirm_total 5300)
      = some ({ role := .payment, data := { d with expense := some 5300 } },
              wonMessage 5300) ∧
    applyTool { role := .payment, data := { d with expense := some 5300 } }
        .payment_done
      = some ({ role := .payment, data := { d with expense := some 5300 } },
              missingPaymentMessage) ∧
    ({ d with expense := some 5300 } : DriveThruData).expense = some 5300 ∧
    ({ d with expense := some 5300 } : DriveThruData).checked_out = none := by
  refine ⟨rfl, ?_, rfl, hco⟩
  simp [applyTool, strTruthy, hpm]

theorem c6_payment_done_without_method_witness :
    applyTool { role := .payment, data := freshData } (.confirm_total 5300)
      = some ({ role := .payment, data := { freshData with expense := some 5300 } },
              wonMessage 5300) ∧
    applyTool { role := .payment, data := { freshData with expense := some 5300 } }
        .payment_done
      = some ({ role := .payment, data := { freshData with expense := some 5300 } },
              missingPaymentMessage) ∧
    ({ freshData with expense := some 5300 } : DriveThruData).expense = some 5300 ∧
    ({ freshData with expense := some 5300 } : DriveThruData).checked_out = none :=
  c6_payment_done_without_method freshData rfl rfl

/-- Claim C10:  `summarize` renders a set-but-falsy field exactly like an unset
field: expense `0`, an empty-string field, or an empty order list each produce
the same dictionary as the state in which that field was never set (the value
shows as `"unknown"`). -/
theorem c10_falsy_fields_render_as_unset (d : DriveThruData) :
    (d.expense = some 0 → summarize d = summarize { d with expense := none }) ∧
    (d.customer_name = some "" →
      summarize d = summarize { d with customer_name := none }) ∧
    (d.car_model = some "" → summarize d = summarize { d with car_model := none }) ∧
    (d.license_plate = some "" →
      summarize d = summarize { d with license_plate := none }) ∧
    (d.pay_method = some "" → summarize d = summarize { d with pay_method := none }) ∧
    (d.order = some [] → summarize d = summarize { d with order := none }) := by
  refine ⟨?_, ?_, ?_, ?_, ?_, ?_⟩ <;> intro h <;>
    simp [summarize, pyOrStr, pyOrOrder, pyOrExpense, h]

/-- A state in which every renderable field is set to a falsy value. -/
def allFalsyData : DriveThruData :=
  { customer_name := some "", car_model := some "", license_plate := some ""
  , order := some [], pay_method := some "", expense := some 0 }

theorem c10_falsy_fields_render_as_unset_witness :
    summarize allFalsyData = summarize { allFalsyData with expense := none } ∧
    summarize allFalsyData = summarize { allFalsyData with customer_name := none } ∧
    summarize allFalsyData = summarize { allFalsyData with pay_method := none } ∧
    summarize allFalsyData = summarize { allFalsyData with order := none } :=
  ⟨(c10_falsy_fields_render_as_unset allFalsyData).1 rfl,
   (c10_falsy_fields_render_as_unset allFalsyData).2.1 rfl,
   (c10_falsy_fields_render_as_unset allFalsyData).2.2.2.2.1 rfl,
   (c10_falsy_fields_render_as_unset allFalsyData).2.2.2.2.2 rfl⟩

/-- Equality of the domain fields (everything except the `prev_agent`
bookkeeping) of two data records. -/
def domainFieldsEq (a b : DriveThruData) : Prop :=
  a.customer_name = b.customer_name ∧ a.car_model = b.car_model ∧
  a.license_plate = b.license_plate ∧ a.order = b.order ∧
  a.pay_method = b.pay_method ∧ a.expense = b.expense ∧
  a.checked_out = b.checked_out

/-- The `Current drive‑thru data` summary that `BaseAgent.on_enter` embeds in
the system message it appends after a transition. -/
def onEnterInjectedSummary (s : SessionState) : List (String × YamlVal) :=
  summarize s.data

/-- A payment-role state whose expense has been set to the falsy value `0`. -/
def zeroExpenseData : DriveThruData :=
  { order := some [⟨"Americano", "Tall", []⟩], expense := some 0 }

/-- The same state except that `expense` was never set. -/
def noExpenseData : DriveThruData :=
  { order := some [⟨"Americano", "Tall", []⟩] }

/-- Claim C4, counterexample:  A hand-off keeps every domain field, but the
summary injected after the transition does not reflect every field that was
set before it: with `expense` set to `0`, the injected summary is identical to
the one of a state whose `expense` was never set, and its `expense` entry is
the unset marker `"unknown"`. -/
theorem c4_counterexample :
    zeroExpenseData.expense = some 0 ∧
    zeroExpenseData ≠ noExpenseData ∧
    onEnterInjectedSummary
        (transferToAgent .pickup { role := .payment, data := zeroExpenseData }).1
      = onEnterInjectedSummary
        (transferToAgent .pickup { role := .payment, data := noExpenseData }).1 ∧
    (onEnterInjectedSummary
        (transferToAgent .pickup { role := .payment, data := zeroExpenseData }).1).lookup
        "expense" = some (YamlVal.s "unknown") := by
  refine ⟨rfl, by decide, rfl, rfl⟩

/-- Claim C4, amended:  A hand-off (`_transfer_to_agent` followed by the target
role's `on_enter`) changes no domain field, and the summary injected after the
transition is exactly the summary of the pre-transition data; in particular
every field set to a truthy value before the transition appears in it with its
value (falsy-set fields render as `"unknown"`, indistinguishable from unset). -/
theorem c4_handoff_preserves_fields (target : Role) (s : SessionState) :
    domainFieldsEq (transferToAgent target s).1.data s.data ∧
    (transferToAgent target s).1.role = target ∧
    onEnterInjectedSummary (transferToAgent target s).1 = summarize s.data ∧
    (∀ n, s.data.customer_name = some n → n ≠ "" →
      ("name", YamlVal.s n) ∈ onEnterInjectedSummary (transferToAgent target s).1) ∧
    (∀ l, s.data.order = some l → l ≠ [] →
      ("order", YamlVal.items l)
        ∈ onEnterInjectedSummary (transferToAgent target s).1) ∧
    (∀ x, s.data.expense = some x → x ≠ 0 →
      ("expense", YamlVal.num x)
        ∈ onEnterInjectedSummary (transferToAgent target s).1) ∧
    (∀ p, s.data.pay_method = some p → p ≠ "" →
      ("pay_method", YamlVal.s p)
        ∈ onEnterInjectedSummary (transferToAgent target s).1) ∧
    (∀ b, s.data.checked_out = some b →
      ("checked_out", YamlVal.b b)
        ∈ onEnterInjectedSummary (transferToAgent target s).1) := by
  refine ⟨⟨rfl, rfl, rfl, rfl, rfl, rfl, rfl⟩, rfl, rfl, ?_, ?_, ?_, ?_, ?_⟩
  · intro n hn hne
    simp [onEnterInjectedSummary, summarize, transferToAgent, pyOrStr, hn, hne]
  · intro l hl hne
    simp [onEnterInjectedSummary, summarize, transferToAgent, pyOrOrder, hl, hne]
  · intro x hx hne
    simp [onEnterInjectedSummary, summarize, transferToAgent, pyOrExpense, hx, hne]
  · intro p hp hne
    simp [onEnterInjectedSummary, summarize, transferToAgent, pyOrStr, hp, hne]
  · intro b hb
    simp [onEnterInjectedSummary, summarize, transferToAgent, pyOrBool, hb]

/-- A fully collected state just before the hand-off to the pickup role. -/
def fullSessionData : DriveThruData :=
  { customer_name := some "김철수", car_model := some "Kia Sorento"
  , license_plate := some "12가3456"
  , order := some [⟨"Caffè Latte", "Tall", ["Oat milk"]⟩]
  , pay_method := some "카드", expense := some 5300, checked_out := some true }

theorem c4_handoff_preserves_fields_witness :
    domainFieldsEq
      (transferToAgent .pickup { role := .payment, data := fullSessionData }).1.data
      fullSessionData ∧
    ("name", YamlVal.s "김철수") ∈ onEnterInjectedSummary
      (transferToAgent .pickup { role := .payment, data := fullSessionData }).1 ∧
    ("order", YamlVal.items [⟨"Caffè Latte", "Tall", ["Oat milk"]⟩])
      ∈ onEnterInjectedSummary
        (transferToAgent .pickup { role := .payment, data := fullSessionData }).1 ∧
    ("expense", YamlVal.num 5300) ∈ onEnterInjectedSummary
      (transferToAgent .pickup { role := .payment, data := fullSessionData }).1 ∧
    ("pay_method", YamlVal.s "카드") ∈ onEnterInjectedSummary
      (transferToAgent .pickup { role := .payment, data := fullSessionData }).1 ∧
    ("checked_out", YamlVal.b true) ∈ onEnterInjectedSummary
      (transferToAgent .pickup { role := .payment, data := fullSessionData }).1 := by
  have h := c4_handoff_preserves_fields .pickup
    { role := .payment, data := fullSessionData }
  exact ⟨h.1,
    h.2.2.2.1 "김철수" rfl (by decide),
    h.2.2.2.2.1 [⟨"Caffè Latte", "Tall", ["Oat milk"]⟩] rfl (by decide),
    h.2.2.2.2.2.1 5300 rfl (by decide),
    h.2.2.2.2.2.2.1 "카드" rfl (by decide),
    h.2.2.2.2.2.2.2 true rfl⟩

/-- One item of a chat context: a message identifier plus the flags that
`ChatContext.copy(exclude_instructions=True, exclude_function_call=False)`
consults.  Content is irrelevant to the merge and kept as a string. -/
structure ChatItem where
  id : Nat
  isInstruction : Bool
  content : String
deriving DecidableEq, Repr

/-- Embedding of `chat_ctx.copy(exclude_instructions=True, exclude_function_call=False)`:
drop the instruction items, keep everything else (function calls included). -/
def copyWithoutInstructions (items : List ChatItem) : List ChatItem :=
  items.filter (fun m => !m.isInstruction)

/-- Embedding of `ChatContext.truncate(max_items=n)`: keep the last `n` items. -/
def truncateItems (n : Nat) (items : List ChatItem) : List ChatItem :=
  items.drop (items.length - n)

/-- The slice of the previous agent's history carried into the new context by
`BaseAgent.on_enter` before deduplication. -/
def carriedSlice (prevItems : List ChatItem) : List ChatItem :=
  truncateItems 6 (copyWithoutInstructions prevItems)

/-- Embedding of the `on_enter` merge: `existing = {m.id for m in chat_ctx.items}` and then
`chat_ctx.items.extend([m for m in truncated.items if m.id not in existing])`. -/
def mergeHistory (base prevItems : List ChatItem) : List ChatItem :=
  base ++ (carriedSlice prevItems).filter
    (fun m => !(base.map ChatItem.id).contains m.id)

theorem carriedSlice_sublist (prevItems : List ChatItem) :
    (carriedSlice prevItems).Sublist prevItems :=
  ((copyWithoutInstructions prevItems).drop_sublist _).trans
    (List.filter_sublist prevItems)

/-- Claim C5:  The slice carried across a hand-off has at most 6 items, all
taken from the previous agent's history; and whenever the two source contexts
carry duplicate-free message identifiers, the merged context contains no two
items with the same identifier. -/
theorem c5_handoff_history_bounded_nodup (base prevItems : List ChatItem)
    (hbase : (base.map ChatItem.id).Nodup)
    (hprev : (prevItems.map ChatItem.id).Nodup) :
    (carriedSlice prevItems).length ≤ 6 ∧
    (carriedSlice prevItems).Sublist prevItems ∧
    ((mergeHistory base prevItems).map ChatItem.id).Nodup := by
  refine ⟨?_, carriedSlice_sublist prevItems, ?_⟩
  · simp only [carriedSlice, truncateItems, List.length_drop]
    omega
  · have hcarried : ((carriedSlice prevItems).map ChatItem.id).Nodup :=
      ((carriedSlice_sublist prevItems).map ChatItem.id).nodup hprev
    have happended : (((carriedSlice prevItems).filter
        (fun m => !(base.map ChatItem.id).contains m.id)).map ChatItem.id).Nodup :=
      ((List.filter_sublist _).map ChatItem.id).nodup hcarried
    rw [mergeHistory, List.map_append, List.nodup_append]
    refine ⟨hbase, happended, ?_⟩
    intro x hx hx'
    simp only [List.mem_map] at hx'
    obtain ⟨m, hm, hmid⟩ := hx'
    have := List.of_mem_filter hm
    rw [hmid] at this
    simp only [Bool.not_eq_true'] at this
    have hnotmem : x ∉ base.map ChatItem.id := by simpa using this
    exact hnotmem hx

/-- A seven-item previous history (one instruction, six dialogue items, one id
already present in the new context). -/
def prevDemoItems : List ChatItem :=
  [ ⟨100, true, "instructions"⟩, ⟨1, false, "u1"⟩, ⟨2, false, "a1"⟩
  , ⟨3, false, "u2"⟩, ⟨4, false, "a2"⟩, ⟨5, false, "u3"⟩, ⟨6, false, "a3"⟩
  , ⟨7, false, "u4"⟩ ]

/-- The target agent's own context before the merge. -/
def baseDemoItems : List ChatItem :=
  [ ⟨200, true, "instructions"⟩, ⟨7, false, "u4"⟩ ]

theorem c5_handoff_history_bounded_nodup_witness :
    (baseDemoItems.map ChatItem.id).Nodup ∧
    (prevDemoItems.map ChatItem.id).Nodup ∧
    (carriedSlice prevDemoItems).length ≤ 6 ∧
    (carriedSlice prevDemoItems).Sublist prevDemoItems ∧
    ((mergeHistory baseDemoItems prevDemoItems).map ChatItem.id).Nodup := by
  have h := c5_handoff_history_bounded_nodup baseDemoItems prevDemoItems
    (by decide) (by decide)
  exact ⟨by decide, by decide, h.1, h.2.1, h.2.2⟩

/-- One line of the Korean ordering bot (`agent_kr.py`'s `OrderItem`). -/
structure OrderItem where
  name : String
  size : Option String := none
  special_requests : Option String := none
deriving DecidableEq, Repr

/-- Embedding of `agent_kr.py`'s `OrderData`: the items plus the index of the item whose
details are being asked for. -/
structure OrderData where
  items : List OrderItem := []
  current_item_index : Nat := 0
deriving DecidableEq, Repr

/-- One summary line of `confirm_full_order` (Python truthiness again:
`item.size or '미지정'`, `item.special_requests or '없음'`). -/
def orderSummaryLine (i : Nat) (it : OrderItem) : String :=
  toString (i + 1) ++ ". 메뉴: " ++ it.name ++ ", 사이즈: " ++
    (match it.size with
     | some s => if s = "" then "미지정" else s
     | none => "미지정") ++
    ", 특별 요청: " ++
    (match it.special_requests with
     | some r => if r = "" then "없음" else r
     | none => "없음") ++ "\n"

/-- The non-empty branch of `confirm_full_order`: the enumerated read-back
followed by the final confirmation question. -/
def fullOrderSummary (items : List OrderItem) : String :=
  "주문하신 내역 최종 확인해드리겠습니다:\n" ++
    String.join (items.enum.map (fun p => orderSummaryLine p.1 p.2)) ++
    "\n이대로 주문을 진행할까요?"

/-- Embedding of `OrderAgent.confirm_full_order`: returns `(None, reply)` — no state change
and no agent change, only the read-back message. -/
def confirm_full_order (d : OrderData) : String :=
  if d.items = [] then "주문 내역이 없습니다. 주문을 다시 시작해주세요."
  else fullOrderSummary d.items

/-- Embedding of `OrderAgent.add_item_details`: record size and special requests on the
current item, advance the index, and either ask for the next item's size or —
when the final item's details have just been supplied — fall through to
`confirm_full_order` inside the same tool call. -/
def add_item_details (d : OrderData) (drink_size : String)
    (special_requests : Option String) : OrderData × String :=
  if d.current_item_index ≥ d.items.length then
    (d, confirm_full_order d)
  else
    let cur := d.items.getD d.current_item_index ⟨"", none, none⟩
    let cur' := { cur with size := some drink_size
                         , special_requests := special_requests }
    let items' := d.items.set d.current_item_index cur'
    let d' : OrderData := { items := items'
                          , current_item_index := d.current_item_index + 1 }
    if d'.current_item_index < items'.length then
      (d', "네, \x27" ++ cur.name ++ "\x27은(는) " ++ drink_size ++ " 사이즈" ++
        (match special_requests with
         | some r => if r = "" then "" else ", 특별 요청: " ++ r
         | none => "") ++
        " 맞으시죠? 다음 메뉴인 \x27" ++
        (items'.getD d'.current_item_index ⟨"", none, none⟩).name ++
        "\x27의 사이즈는 어떻게 하시겠어요?")
    else
      (d', confirm_full_order d')

/-- Embedding of `agent_test.py`'s `ReservationData`. -/
structure ReservationData where
  name : Option String := none
  language : Option String := some "English"
  reservation_type : Option String := none
  date : Option String := none
  time : Option String := none
  party_size : Option Int := none
  special_requests : Option String := none
deriving DecidableEq, Repr

/-- The summary text of `reservation_details`, as a function of the data; the
`special_requests` line uses Python truthiness (`special_requests or 'None'`). -/
def reservationSummary (d : ReservationData) : String :=
  "Thank you! Here are your reservation details:\n" ++
  "Type: " ++ (d.reservation_type.getD "") ++ "\n" ++
  "Date: " ++ (d.date.getD "") ++ "\n" ++
  "Time: " ++ (d.time.getD "") ++ "\n" ++
  "Party Size: " ++ toString (d.party_size.getD 0) ++ "\n" ++
  "Special Requests: " ++
    (match d.special_requests with
     | some r => if r = "" then "None" else r
     | none => "None") ++ "\n" ++
  "Would you like to confirm this reservation?"

/-- Embedding of `ReservationAgent.reservation_details`: store all supplied detail fields
and return `(None, summary)` — the confirmation summary in the same result. -/
def reservation_details (d : ReservationData) (rtype date time : String)
    (party_size : Int) (special_requests : Option String) :
    ReservationData × String :=
  let d' := { d with reservation_type := some rtype, date := some date
                   , time := some time, party_size := some party_size
                   , special_requests := special_requests }
  (d', reservationSummary d')

/-- All detail fields `reservation_details` is responsible for are collected. -/
def reservationDetailsCollected (d : ReservationData) : Prop :=
  d.reservation_type ≠ none ∧ d.date ≠ none ∧ d.time ≠ none ∧
    d.party_size ≠ none

/-- Claim C8:  When exactly the last item's details are still missing, the
`add_item_details` call that supplies them returns the full confirmation
summary as its own tool result (no further user turn), and the
reservation-flow `reservation_details` call likewise returns the confirmation
summary of the fully collected state in the same result. -/
theorem c8_last_detail_call_returns_summary (d : OrderData) (sz : String)
    (sp : Option String) (hne : d.items ≠ [])
    (hlast : d.current_item_index + 1 = d.items.length)
    (rd : ReservationData) (rt dt tm : String) (ps : Int) (sr : Option String) :
    (add_item_details d sz sp).2 = fullOrderSummary (add_item_details d sz sp).1.items ∧
    (add_item_details d sz sp).1.current_item_index
      = (add_item_details d sz sp).1.items.length ∧
    (reservation_details rd rt dt tm ps sr).2
      = reservationSummary (reservation_details rd rt dt tm ps sr).1 ∧
    reservationDetailsCollected (reservation_details rd rt dt tm ps sr).1 := by
  have hlt : d.current_item_index < d.items.length := by omega
  have hnotge : ¬ d.current_item_index ≥ d.items.length := by omega
  have hsetlen : (d.items.set d.current_item_index
      { (d.items.getD d.current_item_index ⟨"", none, none⟩) with
          size := some sz, special_requests := sp }).length = d.items.length := by
    simp
  refine ⟨?_, ?_, rfl, by simp [reservation_details, reservationDetailsCollected]⟩
  · rw [add_item_details.eq_def]
    simp only [if_neg hnotge]
    rw [if_neg (by simp; omega)]
    rw [confirm_full_order, if_neg (by
      intro hemp
      have hz : d.items.length = 0 := by simpa using congrArg List.length hemp
      omega)]
  · rw [add_item_details.eq_def]
    simp only [if_neg hnotge]
    rw [if_neg (by simp; omega)]
    simp
    omega

/-- An order with one item, its details not yet supplied. -/
def oneItemOrder : OrderData := { items := [⟨"아메리카노", none, none⟩] }

theorem c8_last_detail_call_returns_summary_witness :
    oneItemOrder.items ≠ [] ∧
    oneItemOrder.current_item_index + 1 = oneItemOrder.items.length ∧
    (add_item_details oneItemOrder "톨" none).2
      = fullOrderSummary (add_item_details oneItemOrder "톨" none).1.items ∧
    (reservation_details {} "restaurant" "2025-05-05" "19:00" 4 none).2
      = reservationSummary
          (reservation_details {} "restaurant" "2025-05-05" "19:00" 4 none).1 := by
  have h := c8_last_detail_call_returns_summary oneItemOrder "톨" none
    (by decide) (by decide) {} "restaurant" "2025-05-05" "19:00" 4 none
  exact ⟨by decide, by decide, h.1, h.2.2.1⟩

/-- Runtime effects the body of `OrderAgent.order_confirmed` requests, in
order: `session.interrupt()`, the final non-interruptible reply, and the
`delete_room` teardown request. -/
inductive KrEffect where
  | interrupt
  | finalReply (instructions : String) (allowInterruptions : Bool)
  | deleteRoomRequest
deriving DecidableEq, Repr

/-- The effect trace of one `order_confirmed` call (`agent_kr.py`, lines
170–183).  The body mutates no `OrderData` field. -/
def order_confirmed_effects : List KrEffect :=
  [ KrEffect.interrupt
  , KrEffect.finalReply "주문이 완료되었습니다. 픽업대로 이동해주세요. 감사합니다." false
  , KrEffect.deleteRoomRequest ]

/-- Number of teardown (room-deletion) requests in an effect trace. -/
def teardownCount (effs : List KrEffect) : Nat :=
  effs.countP (fun e => e = KrEffect.deleteRoomRequest)

/-- Modelled from the spec: the external runtime ends ("finalizes") the
session when the teardown request is issued (spec §4.3: a completion tool
"signals the external runtime to end the session").  The session counts as
finalized once its trace contains a teardown request. -/
def sessionFinalized (effs : List KrEffect) : Bool :=
  effs.any (fun e => e = KrEffect.deleteRoomRequest)

/-- Claim C7:  Appending an `order_confirmed` call to any session trace that has
not yet requested teardown (the runtime ends the session at the first
teardown, so a live session's trace contains none) marks the session
finalized with exactly one teardown request — never zero, never more than
one — and the call issues its final reply non-interruptibly after an
interrupt. -/
theorem c7_order_confirmed_single_teardown (pre : List KrEffect)
    (hlive : teardownCount pre = 0) :
    sessionFinalized (pre ++ order_confirmed_effects) = true ∧
    teardownCount (pre ++ order_confirmed_effects) = 1 ∧
    teardownCount order_confirmed_effects = 1 ∧
    KrEffect.finalReply "주문이 완료되었습니다. 픽업대로 이동해주세요. 감사합니다." false
      ∈ order_confirmed_effects := by
  refine ⟨?_, ?_, rfl, by decide⟩
  · simp [sessionFinalized, order_confirmed_effects]
  · rw [teardownCount, List.countP_append]
    rw [teardownCount] at hlive
    rw [hlive]
    rfl

theorem c7_order_confirmed_single_teardown_witness :
    teardownCount [] = 0 ∧
    sessionFinalized ([] ++ order_confirmed_effects) = true ∧
    teardownCount ([] ++ order_confirmed_effects) = 1 := by
  have h := c7_order_confirmed_single_teardown [] rfl
  exact ⟨rfl, h.1, h.2.1⟩

/-- One input WAV file of `wav_merger.py`: the numeric stem of the filename
(`int(os.path.splitext(x)[0])`, the sort key), the wave parameters
(`wf.getparams()`, compared only for equality, abstracted as a number), and
the audio frames. -/
structure WavFile where
  stem : Nat
  params : Nat
  frames : List Nat
deriving DecidableEq, Repr

/-- One combined output file: the parameters of its first input and the
concatenated frames. -/
structure OutWav where
  params : Nat
  frames : List Nat
deriving DecidableEq, Repr

/-- Embedding of `sorted(files, key=lambda x: int(os.path.splitext(x)[0]))`: a stable sort
by numeric stem. -/
def sortWavs (files : List WavFile) : List WavFile :=
  List.insertionSort (fun a b => a.stem ≤ b.stem) files

instance : IsTotal WavFile (fun a b => a.stem ≤ b.stem) :=
  ⟨fun a b => Nat.le_total a.stem b.stem⟩

instance : IsTrans WavFile (fun a b => a.stem ≤ b.stem) :=
  ⟨fun _ _ _ hab hbc => Nat.le_trans hab hbc⟩

/-- Value `math.ceil(len(files) / batch_size)` for natural inputs. -/
def numBatches (n bs : Nat) : Nat := (n + bs - 1) / bs

/-- The Python batch slices: `files[i*bs : (i+1)*bs]` for each batch index. -/
def batchSlices {α : Type} (bs : Nat) (l : List α) : List (List α) :=
  (List.range (numBatches l.length bs)).map (fun i => (l.drop (i * bs)).take bs)

/-- Processing one batch: the first file fixes `params`; the remaining files
are checked against it in order (`if wf.getparams() != params: raise
ValueError(...)`) and their frames are appended. -/
def processBatch (f : WavFile) (rest : List WavFile) : Except String OutWav :=
  match rest.find? (fun g => g.params != f.params) with
  | some g => Except.error ("Wave params mismatch in " ++ toString g.stem ++ ".wav")
  | none => Except.ok ⟨f.params, ((f :: rest).map WavFile.frames).flatten⟩

/-- Embedding of `combine_wavs_in_batches`: sort, return with no output on an empty
directory, otherwise process the `ceil(n/bs)` batches in order, stopping at
the first `ValueError`. -/
def combine_wavs_in_batches (files : List WavFile) (bs : Nat) :
    Except String (List OutWav) :=
  if sortWavs files = [] then Except.ok []
  else
    (batchSlices bs (sortWavs files)).mapM (fun b =>
      match b with
      | [] => Except.error "empty batch"
      | f :: rest => processBatch f rest)

/-- All files of a batch share the format of the batch's first file. -/
def batchUniformB : List WavFile → Bool
  | [] => true
  | f :: rest => rest.all (fun g => g.params == f.params)

/-- The output a format-uniform batch produces. -/
def outOf (b : List WavFile) : OutWav :=
  ⟨(b.headD ⟨0, 0, []⟩).params, (b.map WavFile.frames).flatten⟩

theorem numBatches_nil (bs : Nat) (hbs : 0 < bs) : numBatches 0 bs = 0 := by
  rw [numBatches]
  exact Nat.div_eq_of_lt (by omega)

theorem batchSlices_nil {α : Type} (bs : Nat) (hbs : 0 < bs) :
    batchSlices bs ([] : List α) = [] := by
  simp [batchSlices, numBatches_nil bs hbs]

theorem numBatches_succ (n bs : Nat) (hbs : 0 < bs) (hn : 0 < n) :
    numBatches n bs = numBatches (n - bs) bs + 1 := by
  rcases le_or_lt n bs with hle | hlt
  · have h0 : n - bs = 0 := by omega
    rw [h0, numBatches_nil bs hbs, numBatches]
    have hge : 1 ≤ (n + bs - 1) / bs :=
      (Nat.le_div_iff_mul_le hbs).mpr (by omega)
    have hlt2 : (n + bs - 1) / bs < 2 :=
      (Nat.div_lt_iff_lt_mul hbs).mpr (by omega)
    omega
  · rw [numBatches, numBatches]
    have h1 : n + bs - 1 = (n - 1) + bs := by omega
    have h2 : n - bs + bs - 1 = n - 1 := by omega
    rw [h1, h2, Nat.add_div_right _ hbs]

theorem batchSlices_cons {α : Type} (bs : Nat) (hbs : 0 < bs) (l : List α)
    (hl : l ≠ []) :
    batchSlices bs l = l.take bs :: batchSlices bs (l.drop bs) := by
  have hn : 0 < l.length := List.length_pos.mpr hl
  rw [batchSlices, batchSlices, List.length_drop,
    numBatches_succ l.length bs hbs hn, List.range_succ_eq_map]
  simp only [List.map_cons, List.map_map, Nat.zero_mul, List.drop_zero]
  congr 1
  apply List.map_congr_left
  intro i _
  simp only [Function.comp_apply]
  rw [List.drop_drop, Nat.succ_mul, Nat.add_comm bs (i * bs)]

theorem batchSlices_join {α : Type} (bs : Nat) (hbs : 0 < bs) (l : List α) :
    (batchSlices bs l).flatten = l := by
  generalize hn : l.length = n
  induction n using Nat.strong_induction_on generalizing l with
  | _ n ih =>
    by_cases hl : l = []
    · subst hl
      rw [batchSlices_nil bs hbs]
      rfl
    · rw [batchSlices_cons bs hbs l hl, List.flatten_cons,
        ih (l.drop bs).length (by
          subst hn
          have := List.length_pos.mpr hl
          simp only [List.length_drop]
          omega) (l.drop bs) rfl]
      exact List.take_append_drop bs l

theorem batchSlices_mem_length {α : Type} (bs : Nat) (l : List α)
    (b : List α) (hb : b ∈ batchSlices bs l) : b.length ≤ bs := by
  simp only [batchSlices, List.mem_map, List.mem_range] at hb
  obtain ⟨i, _, rfl⟩ := hb
  simp [List.length_take]

theorem batchSlices_mem_ne_nil {α : Type} (bs : Nat) (hbs : 0 < bs)
    (l : List α) (b : List α) (hb : b ∈ batchSlices bs l) : b ≠ [] := by
  simp only [batchSlices, List.mem_map, List.mem_range] at hb
  obtain ⟨i, hi, rfl⟩ := hb
  rw [numBatches] at hi
  have hmul : (i + 1) * bs ≤ l.length + bs - 1 :=
    (Nat.le_div_iff_mul_le hbs).mp hi
  have hsm : (i + 1) * bs = i * bs + bs := by ring
  rw [hsm] at hmul
  have hidx : i * bs < l.length := by omega
  have hpos : 0 < ((l.drop (i * bs)).take bs).length := by
    simp only [List.length_take, List.length_drop]
    omega
  exact List.length_pos.mp hpos

theorem mapM_ok_of_forall_ok {ε α β : Type} (f : α → Except ε β) (g : α → β) :
    ∀ l : List α, (∀ a ∈ l, f a = Except.ok (g a)) →
      l.mapM f = Except.ok (l.map g) := by
  intro l
  induction l with
  | nil => intro _; rfl
  | cons a l ih =>
      intro h
      rw [List.mapM_cons, h a (by simp), ih (fun x hx => h x (by simp [hx]))]
      rfl

theorem mapM_error_of_exists_error {ε α β : Type} (f : α → Except ε β) :
    ∀ l : List α, (∃ a ∈ l, ∀ b, f a ≠ Except.ok b) →
      ∃ e, l.mapM f = Except.error e := by
  intro l
  induction l with
  | nil =>
      rintro ⟨a, ha, _⟩
      exact absurd ha (List.not_mem_nil a)
  | cons x l ih =>
      rintro ⟨a, ha, hfa⟩
      cases hfx : f x with
      | error e => exact ⟨e, by rw [List.mapM_cons, hfx]; rfl⟩
      | ok b =>
          rcases List.mem_cons.mp ha with rfl | hmem
          · exact absurd hfx (hfa b)
          · obtain ⟨e, he⟩ := ih ⟨a, hmem, hfa⟩
            exact ⟨e, by rw [List.mapM_cons, hfx, he]; rfl⟩

theorem processBatch_ok_of_uniform (f : WavFile) (rest : List WavFile)
    (h : batchUniformB (f :: rest) = true) :
    processBatch f rest = Except.ok (outOf (f :: rest)) := by
  rw [processBatch]
  have hfind : rest.find? (fun g => g.params != f.params) = none := by
    rw [List.find?_eq_none]
    intro g hg
    simp only [batchUniformB, List.all_eq_true] at h
    have hb := h g hg
    simp only [beq_iff_eq] at hb
    simp [hb]
  rw [hfind]
  rfl

theorem processBatch_error_of_mismatch (f : WavFile) (rest : List WavFile)
    (h : batchUniformB (f :: rest) = false) :
    ∃ e, processBatch f rest = Except.error e := by
  rw [processBatch]
  cases hfind : rest.find? (fun g => g.params != f.params) with
  | some g => exact ⟨_, rfl⟩
  | none =>
      exfalso
      rw [List.find?_eq_none] at hfind
      simp only [batchUniformB, List.all_eq_false] at h
      obtain ⟨g, hg, hne⟩ := h
      have hgf := hfind g hg
      simp only [bne_iff_ne, ne_eq, not_not] at hgf
      simp [hgf] at hne

/-- Claim C9, amended:  For every directory of WAV files and positive batch
size: the files are processed as a permutation of the input sorted by numeric
stem, cut into `ceil(n / batch_size)` consecutive batches of at most
`batch_size` files each whose concatenation is the whole sorted list; if every
batch is format-uniform the merge succeeds with one output per batch, and if
some batch contains a file whose format differs from that batch's first file
the merge raises a `ValueError`.  (Mismatches across different batches are not
detected — see the counterexample.) -/
theorem c9_batched_merge (files : List WavFile) (bs : Nat) (hbs : 0 < bs) :
    (sortWavs files).Perm files ∧
    (sortWavs files).Pairwise (fun a b => a.stem ≤ b.stem) ∧
    (batchSlices bs (sortWavs files)).flatten = sortWavs files ∧
    (batchSlices bs (sortWavs files)).length = numBatches files.length bs ∧
    (∀ b ∈ batchSlices bs (sortWavs files), b.length ≤ bs) ∧
    ((∀ b ∈ batchSlices bs (sortWavs files), batchUniformB b = true) →
      combine_wavs_in_batches files bs
        = Except.ok ((batchSlices bs (sortWavs files)).map outOf)) ∧
    ((∃ b ∈ batchSlices bs (sortWavs files), batchUniformB b = false) →
      ∃ e, combine_wavs_in_batches files bs = Except.error e) := by
  have hperm := List.perm_insertionSort (fun a b : WavFile => a.stem ≤ b.stem) files
  have hlen : (sortWavs files).length = files.length := hperm.length_eq
  refine ⟨hperm, List.sorted_insertionSort _ files, batchSlices_join bs hbs _,
    ?_, fun b hb => batchSlices_mem_length bs _ b hb, ?_, ?_⟩
  · simp [batchSlices, hlen]
  · intro hall
    rw [combine_wavs_in_batches]
    by_cases hnil : sortWavs files = []
    · rw [if_pos hnil, hnil, batchSlices_nil bs hbs]
      rfl
    · rw [if_neg hnil]
      apply mapM_ok_of_forall_ok _ outOf
      intro b hb
      have hbne := batchSlices_mem_ne_nil bs hbs _ b hb
      cases b with
      | nil => exact absurd rfl hbne
      | cons f rest => exact processBatch_ok_of_uniform f rest (hall _ hb)
  · rintro ⟨b, hb, hbad⟩
    have hnil : sortWavs files ≠ [] := by
      intro h0
      rw [h0, batchSlices_nil bs hbs] at hb
      exact absurd hb (List.not_mem_nil b)
    rw [combine_wavs_in_batches, if_neg hnil]
    apply mapM_error_of_exists_error
    refine ⟨b, hb, ?_⟩
    cases b with
    | nil => simp [batchUniformB] at hbad
    | cons f rest =>
        obtain ⟨e, he⟩ := processBatch_error_of_mismatch f rest hbad
        intro out
        show processBatch f rest ≠ Except.ok out
        rw [he]
        simp

/-- Two single-batch inputs with different wave formats (`params` 1 vs 2). -/
def mismatchedWavs : List WavFile := [⟨0, 1, [10]⟩, ⟨1, 2, [20]⟩]

/-- Claim C9, counterexample:  With `batch_size = 1`, two input files of
different formats are merged without any error: each batch has a single file,
so the per-batch check against the batch's first file never fires, refuting
"raises an error whenever two input files have mismatching wave formats". -/
theorem c9_counterexample :
    (⟨0, 1, [10]⟩ : WavFile).params ≠ (⟨1, 2, [20]⟩ : WavFile).params ∧
    combine_wavs_in_batches mismatchedWavs 1
      = Except.ok [⟨1, [10]⟩, ⟨2, [20]⟩] :=
  ⟨by decide, rfl⟩

/-- Two same-format files arriving unsorted. -/
def demoWavs : List WavFile := [⟨1, 7, [4]⟩, ⟨0, 7, [3]⟩]

theorem c9_batched_merge_witness :
    (0 : Nat) < 2 ∧
    (sortWavs demoWavs).Perm demoWavs ∧
    (batchSlices 2 (sortWavs demoWavs)).flatten = sortWavs demoWavs ∧
    combine_wavs_in_batches demoWavs 2
      = Except.ok ((batchSlices 2 (sortWavs demoWavs)).map outOf) := by
  have h := c9_batched_merge demoWavs 2 (by decide)
  exact ⟨by decide, h.1, h.2.2.1, h.2.2.2.2.2.1 (by decide)⟩
